import Mathlib

/-!
Verification of the c-error library: a thread-local "last error" facility with a
53-bit packed error code and an optional diagnostic string.

The embedding models the C sources shallowly:
  - `uint64_t` / `size_t` values are `Nat`, reduced modulo `2 ^ 64` exactly where
    the C arithmetic can wrap; bitwise C operators map to `&&&`, `|||`, `^^^`,
    `<<<`, `>>>` on `Nat`.
  - A C string is modelled by the `List Nat` of its bytes; reading through a
    `const char*` observes the bytes up to the first NUL, i.e.
    `List.takeWhile (fun b => b != 0)`.
  - The thread-local `ErrorContext` is passed explicitly; each inline function
    of `lasterror.h` becomes a function on `ErrorContext`.
  - `assert` and `realloc` depend on the build and the allocator: the copy
    setter takes `assertsActive : Bool` (false models an NDEBUG build where
    the `assert` is compiled out) and `allocOk : Bool` (the allocator oracle);
    an assertion failure aborts the process, modelled by the
    `SetCopyResult.halted` constructor carrying the state at the abort.
-/

/-! ## Bit field definitions (lasterror.h lines 34-61) -/

def ERROR_CODE_BIT_POS : Nat := 0
def STATUS_BIT_POS : Nat := 16
def COMPONENT_BIT_POS : Nat := 21
def SOFTWARE_ID_BIT_POS : Nat := 32
def RESERVED_BIT_POS : Nat := 40

def ERROR_CODE_MASK : Nat := 0x000000000000FFFF
def STATUS_MASK : Nat := 0x00000000001F0000
def COMPONENT_MASK : Nat := 0x00000000FFE00000
def SOFTWARE_ID_MASK : Nat := 0x000000FF00000000
def RESERVED_MASK : Nat := 0x001FFF0000000000
def VALID_ERROR_MASK : Nat := 0x001FFFFFFFFFFFFF

def MAX_ERROR_CODE : Nat := 0xFFFF
def MAX_STATUS : Nat := 0x1F
def MAX_COMPONENT : Nat := 0x7FF
def MAX_SOFTWARE_ID : Nat := 0xFF
def MAX_RESERVED : Nat := 0x1FFF

/-- Modulus of the C `size_t` and `uint64_t` types on the modelled (64-bit)
platform. -/
def SIZE_T_MOD : Nat := 2 ^ 64

/-! ## Error code construction and extraction (lasterror.h lines 78-134) -/

/-- MAKE_ERROR_CODE_53: each field is masked to its width, shifted into
position and OR-ed (lasterror.h lines 78-83).  The C casts to `uint64_t`
happen before masking; since each mask keeps only low bits, masking a `Nat`
directly is equivalent. -/
def MAKE_ERROR_CODE_53 (reserved softwareId componentId status errorCode : Nat) : Nat :=
  ((reserved &&& MAX_RESERVED) <<< RESERVED_BIT_POS) |||
  ((softwareId &&& MAX_SOFTWARE_ID) <<< SOFTWARE_ID_BIT_POS) |||
  ((componentId &&& MAX_COMPONENT) <<< COMPONENT_BIT_POS) |||
  ((status &&& MAX_STATUS) <<< STATUS_BIT_POS) |||
  (errorCode &&& MAX_ERROR_CODE)

/-- MAKE_ERROR_CODE: reserved field zero-filled (lasterror.h lines 88-89). -/
def MAKE_ERROR_CODE (softwareId componentId status errorCode : Nat) : Nat :=
  MAKE_ERROR_CODE_53 0 softwareId componentId status errorCode

/-- MAKE_ERROR_CODE_32: reserved and software id zero-filled
(lasterror.h lines 94-95). -/
def MAKE_ERROR_CODE_32 (componentId status errorCode : Nat) : Nat :=
  MAKE_ERROR_CODE_53 0 0 componentId status errorCode

/-- GET_ERROR_CODE (lasterror.h lines 105-106); the final `% 2 ^ 16` is the
C cast to `uint16_t`. -/
def GET_ERROR_CODE (ullError : Nat) : Nat :=
  ((ullError &&& ERROR_CODE_MASK) >>> ERROR_CODE_BIT_POS) % 2 ^ 16

/-- GET_STATUS (lasterror.h lines 111-112); the final `% 2 ^ 8` is the C cast
to `uint8_t`. -/
def GET_STATUS (ullError : Nat) : Nat :=
  ((ullError &&& STATUS_MASK) >>> STATUS_BIT_POS) % 2 ^ 8

/-- GET_COMPONENT_ID (lasterror.h lines 117-118); cast to `uint16_t`. -/
def GET_COMPONENT_ID (ullError : Nat) : Nat :=
  ((ullError &&& COMPONENT_MASK) >>> COMPONENT_BIT_POS) % 2 ^ 16

/-- GET_SOFTWARE_ID (lasterror.h lines 123-124); cast to `uint8_t`. -/
def GET_SOFTWARE_ID (ullError : Nat) : Nat :=
  ((ullError &&& SOFTWARE_ID_MASK) >>> SOFTWARE_ID_BIT_POS) % 2 ^ 8

/-- GET_RESERVED from examples/basic_usage.c lines 12-13; cast to `uint16_t`. -/
def GET_RESERVED (ullError : Nat) : Nat :=
  ((ullError &&& RESERVED_MASK) >>> RESERVED_BIT_POS) % 2 ^ 16

/-- IS_VALID_ERROR_CODE (lasterror.h lines 133-134):
`(ullError & ~VALID_ERROR_MASK) == 0`.  The C `~` is complement within
`uint64_t`, i.e. XOR with `2 ^ 64 - 1`. -/
def IS_VALID_ERROR_CODE (ullError : Nat) : Bool :=
  ullError &&& ((2 ^ 64 - 1) ^^^ VALID_ERROR_MASK) == 0

/-! ## Thread-local storage structures (lasterror.h lines 140-154) -/

def ERROR_INFO_INITIAL_CAPACITY : Nat := 128

/-- The possible referents of the `pszLastErrorInfo` pointer: NULL, a
caller-owned string (stored without copying), or the dynamic
buffer (`pszLastErrorInfoBuffer`). -/
inductive InfoView where
  | null : InfoView
  | borrowed (s : List Nat) : InfoView
  | owned : InfoView
deriving DecidableEq

/-- The ErrorContext structure (lasterror.h lines 148-154).  The dynamic
buffer is `none` while unallocated; when allocated, the `List Nat` holds the
full contents of the allocation. -/
structure ErrorContext where
  ullLastError : Nat
  pszLastErrorInfo : InfoView
  pszLastErrorInfoBuffer : Option (List Nat)
  nBufferCapacity : Nat
deriving DecidableEq

/-- The zero-initialized thread-local context `g_LastErrorCtx` at thread start
(lasterror.c lines 16-36). -/
def initialErrorContext : ErrorContext :=
  { ullLastError := 0
    pszLastErrorInfo := InfoView.null
    pszLastErrorInfoBuffer := none
    nBufferCapacity := 0 }

/-! ## Inline API functions (lasterror.h lines 191-332) -/

/-- cerror_set_last (lasterror.h lines 194-198): store only the valid 53-bit
error code. -/
def cerror_set_last (ullError : Nat) (ctx : ErrorContext) : ErrorContext :=
  { ctx with ullLastError := ullError &&& VALID_ERROR_MASK }

/-- cerror_get_last (lasterror.h lines 203-206). -/
def cerror_get_last (ctx : ErrorContext) : Nat :=
  ctx.ullLastError

/-- cerror_clear_last (lasterror.h lines 211-220): zero the code, drop the
info pointer, and if the dynamic buffer is allocated overwrite its first byte
with NUL. -/
def cerror_clear_last (ctx : ErrorContext) : ErrorContext :=
  { ctx with
    ullLastError := 0
    pszLastErrorInfo := InfoView.null
    pszLastErrorInfoBuffer :=
      match ctx.pszLastErrorInfoBuffer with
      | none => none
      | some b => some (b.set 0 0) }

/-- cerror_get_last_code (lasterror.h lines 225-228). -/
def cerror_get_last_code (ctx : ErrorContext) : Nat :=
  GET_ERROR_CODE ctx.ullLastError

/-- cerror_get_last_status (lasterror.h lines 233-236). -/
def cerror_get_last_status (ctx : ErrorContext) : Nat :=
  GET_STATUS ctx.ullLastError

/-- cerror_get_last_component_id (lasterror.h lines 241-244). -/
def cerror_get_last_component_id (ctx : ErrorContext) : Nat :=
  GET_COMPONENT_ID ctx.ullLastError

/-- cerror_get_last_software_id (lasterror.h lines 249-252). -/
def cerror_get_last_software_id (ctx : ErrorContext) : Nat :=
  GET_SOFTWARE_ID ctx.ullLastError

/-- cerror_set_last_info (lasterror.h lines 257-262): set the code, then store
the pointer supplied by the caller without copying (NULL allowed). -/
def cerror_set_last_info (ullError : Nat) (pszErrorInfo : Option (List Nat))
    (ctx : ErrorContext) : ErrorContext :=
  { cerror_set_last ullError ctx with
    pszLastErrorInfo :=
      match pszErrorInfo with
      | none => InfoView.null
      | some s => InfoView.borrowed s }

/-- The "32-bit hack to round up to next power of 2"
(lasterror.h lines 289-297), on a 64-bit `size_t`: decrement (with wrap-around,
as for the C unsigned type), OR in right-shifts by 1, 2, 4, 8, 16, then
increment. -/
def roundUpPow2Hack (nRequiredCapacity : Nat) : Nat :=
  let n := (nRequiredCapacity + (SIZE_T_MOD - 1)) % SIZE_T_MOD
  let n := n ||| (n >>> 1)
  let n := n ||| (n >>> 2)
  let n := n ||| (n >>> 4)
  let n := n ||| (n >>> 8)
  let n := n ||| (n >>> 16)
  (n + 1) % SIZE_T_MOD

/-- The effect of `memcpy(buf, psz, nLength); buf[nLength] = 0` on the buffer
contents (lasterror.h lines 318-319): the copied bytes, a NUL, and the old
contents beyond the written region. -/
def storeStringBytes (buf : List Nat) (sBytes : List Nat) : List Nat :=
  sBytes ++ 0 :: buf.drop (sBytes.length + 1)

/-- The contents `realloc` leaves in a block of the new capacity: the old
contents (truncated to the new capacity) are preserved; bytes past them are
indeterminate in C and are modelled as 0 — no operation in this development
reads past the NUL terminator that is always written before the buffer is
next observed. -/
def reallocContents (old : Option (List Nat)) (nNewCapacity : Nat) : List Nat :=
  (old.getD []).take nNewCapacity ++
    List.replicate (nNewCapacity - (old.getD []).length) 0

/-- Outcome of `cerror_set_last_info_copy`: `halted` models an `assert`
firing (the process aborts in the carried state), `crashed` models the
undefined behaviour of `memcpy` into a NULL buffer (reachable only from
states violating the capacity/buffer invariant), `returned` is a normal
return. -/
inductive SetCopyResult where
  | halted (ctx : ErrorContext) : SetCopyResult
  | crashed (ctx : ErrorContext) : SetCopyResult
  | returned (ctx : ErrorContext) : SetCopyResult
deriving DecidableEq

/-- The context state carried by a `SetCopyResult`. -/
def SetCopyResult.state : SetCopyResult → ErrorContext
  | SetCopyResult.halted c => c
  | SetCopyResult.crashed c => c
  | SetCopyResult.returned c => c

/-- cerror_set_last_info_copy (lasterror.h lines 270-323).
`assertsActive = false` models an NDEBUG build (the two `assert`s compiled
out); `allocOk` tells whether the `realloc` call succeeds.  Control flow of
the C function, in order: NULL-pointer check (assert + early return), set the
code, compute `strlen` and the required capacity in `size_t`, grow the buffer
if required (early return when `realloc` fails), copy the bytes and the NUL
terminator, point `pszLastErrorInfo` at the buffer. -/
def cerror_set_last_info_copy (assertsActive allocOk : Bool) (ullError : Nat)
    (pszErrorInfo : Option (List Nat)) (ctx : ErrorContext) : SetCopyResult :=
  match pszErrorInfo with
  | none =>
    if assertsActive then SetCopyResult.halted ctx else SetCopyResult.returned ctx
  | some s =>
    let ctx1 := cerror_set_last ullError ctx
    let sBytes := s.takeWhile (fun b => b != 0)
    let nLength := sBytes.length % SIZE_T_MOD
    let nRequiredCapacity := (nLength + 1) % SIZE_T_MOD
    if nRequiredCapacity > ctx1.nBufferCapacity then
      if allocOk then
        let n := roundUpPow2Hack nRequiredCapacity
        let nNewCapacity := if n > ERROR_INFO_INITIAL_CAPACITY then n else ERROR_INFO_INITIAL_CAPACITY
        let pNewBuffer := reallocContents ctx1.pszLastErrorInfoBuffer nNewCapacity
        SetCopyResult.returned
          { ctx1 with
            pszLastErrorInfoBuffer := some (storeStringBytes pNewBuffer sBytes)
            nBufferCapacity := nNewCapacity
            pszLastErrorInfo := InfoView.owned }
      else
        if assertsActive then SetCopyResult.halted ctx1 else SetCopyResult.returned ctx1
    else
      match ctx1.pszLastErrorInfoBuffer with
      | some b =>
        SetCopyResult.returned
          { ctx1 with
            pszLastErrorInfoBuffer := some (storeStringBytes b sBytes)
            pszLastErrorInfo := InfoView.owned }
      | none => SetCopyResult.crashed ctx1

/-- cerror_get_last_info (lasterror.h lines 328-332): the empty string when
the pointer is NULL, otherwise the bytes the pointer refers to, up to the
first NUL. -/
def cerror_get_last_info (ctx : ErrorContext) : List Nat :=
  match ctx.pszLastErrorInfo with
  | InfoView.null => []
  | InfoView.borrowed s => s.takeWhile (fun b => b != 0)
  | InfoView.owned => (ctx.pszLastErrorInfoBuffer.getD []).takeWhile (fun b => b != 0)

/-- cleanupThreadLocalErrorBuffer (lasterror.c lines 52-65): free the dynamic
buffer if allocated (resetting the capacity inside that branch, as the C code
does), then reset the error code and the info pointer. -/
def cleanupThreadLocalErrorBuffer (ctx : ErrorContext) : ErrorContext :=
  let ctx1 :=
    match ctx.pszLastErrorInfoBuffer with
    | some _ => { ctx with pszLastErrorInfoBuffer := none, nBufferCapacity := 0 }
    | none => ctx
  { ctx1 with ullLastError := 0, pszLastErrorInfo := InfoView.null }

/-! ## Traces of public API calls -/

/-- One call through the public mutating API of the context. -/
inductive ApiOp where
  | setLast (ullError : Nat) : ApiOp
  | setLastInfo (ullError : Nat) (text : Option (List Nat)) : ApiOp
  | setLastInfoCopy (allocOk : Bool) (ullError : Nat) (text : Option (List Nat)) : ApiOp
  | clearLast : ApiOp
  | cleanupBuffer : ApiOp
deriving DecidableEq

/-- Run one API call on the context (for `setLastInfoCopy` the state carried
by the result, whatever the outcome). -/
def runOp (assertsActive : Bool) (op : ApiOp) (ctx : ErrorContext) : ErrorContext :=
  match op with
  | ApiOp.setLast u => cerror_set_last u ctx
  | ApiOp.setLastInfo u t => cerror_set_last_info u t ctx
  | ApiOp.setLastInfoCopy k u t => (cerror_set_last_info_copy assertsActive k u t ctx).state
  | ApiOp.clearLast => cerror_clear_last ctx
  | ApiOp.cleanupBuffer => cleanupThreadLocalErrorBuffer ctx

/-- Run a sequence of API calls. -/
def runOps (assertsActive : Bool) (ops : List ApiOp) (ctx : ErrorContext) : ErrorContext :=
  ops.foldl (fun c op => runOp assertsActive op c) ctx

/-- The string arguments an API call supplies to the context. -/
def opTexts : ApiOp → List (List Nat)
  | ApiOp.setLastInfo _ (some t) => [ t]
  | ApiOp.setLastInfoCopy _ _ (some t) => [ t]
  | _ => []

/-- Containment: `s` occurs as a contiguous byte block inside `t`. -/
def occursIn (s t : List Nat) : Prop :=
  ∃ u v, t = u ++ s ++ v

/-- No call in the trace supplies a string in which `secret` occurs. -/
def opsAvoid (secret : List Nat) (ops : List ApiOp) : Prop :=
  ∀ op ∈ ops, ∀ t ∈ opTexts op, ¬ occursIn secret t

/-! ## Specification-side definition for the growth policy -/

/-- Modelled from the spec: "round required size up to the next power of two".
`nextPow2Spec n` is the least power of two that is `≥ n` (see
`le_nextPow2Spec` and `nextPow2Spec_le_pow` below); `Nat.size m` is the
number of bits of `m`, so `2 ^ Nat.size (n - 1)` is the least power of two
exceeding `n - 1`. -/
def nextPow2Spec (n : Nat) : Nat :=
  2 ^ Nat.size (n - 1)

theorem le_nextPow2Spec (n : Nat) : n ≤ nextPow2Spec n := by
  unfold nextPow2Spec
  rcases n with _ | m
  · exact Nat.zero_le _
  · have h := Nat.lt_size_self m
    simpa using h

theorem nextPow2Spec_le_pow (n j : Nat) (h : n ≤ 2 ^ j) : nextPow2Spec n ≤ 2 ^ j := by
  unfold nextPow2Spec
  apply Nat.pow_le_pow_right (by norm_num)
  apply Nat.size_le.mpr
  rcases n with _ | m
  · simp
  · simpa using h

theorem nextPow2Spec_isPow2 (n : Nat) : ∃ k, nextPow2Spec n = 2 ^ k :=
  ⟨Nat.size (n - 1), rfl⟩

/-! ## Bit-level helper lemmas -/

/-- One OR-shift stage of the round-up hack, as a function (each `n |= n >> w`
line of lasterror.h lines 292-296 is `smearStep _ w`). -/
def smearStep (x w : Nat) : Nat :=
  x ||| (x >>> w)

theorem roundUpPow2Hack_as_smear (n0 : Nat) :
    roundUpPow2Hack n0 =
      (smearStep (smearStep (smearStep (smearStep (smearStep
        ((n0 + (SIZE_T_MOD - 1)) % SIZE_T_MOD) 1) 2) 4) 8) 16 + 1) % SIZE_T_MOD := rfl

theorem testBit_smearStep (x w i : Nat) :
    (smearStep x w).testBit i = (x.testBit i || x.testBit (i + w)) := by
  simp [ smearStep, Nat.testBit_or, Nat.testBit_shiftRight, Nat.add_comm]

theorem smearStep_window (x W m : Nat)
    (h : ∀ i, x.testBit i = true ↔ ∃ d, d < W ∧ m.testBit (i + d) = true) :
    ∀ i, (smearStep x W).testBit i = true ↔ ∃ d, d < 2 * W ∧ m.testBit (i + d) = true := by
  intro i
  rw [testBit_smearStep, Bool.or_eq_true, h i, h (i + W)]
  constructor
  · rintro (⟨d, hd, hb⟩ | ⟨d, hd, hb⟩)
    · exact ⟨d, by omega, hb⟩
    · refine ⟨W + d, by omega, ?_⟩
      have he : i + (W + d) = i + W + d := by omega
      rw [he]; exact hb
  · rintro ⟨d, hd, hb⟩
    by_cases hc : d < W
    · exact Or.inl ⟨d, hc, hb⟩
    · refine Or.inr ⟨d - W, by omega, ?_⟩
      have he : i + W + (d - W) = i + d := by omega
      rw [he]; exact hb

theorem smear_window (m : Nat) :
    ∀ i, (smearStep (smearStep (smearStep (smearStep (smearStep m 1) 2) 4) 8) 16).testBit i
      = true ↔ ∃ d, d < 32 ∧ m.testBit (i + d) = true := by
  have h0 : ∀ i, m.testBit i = true ↔ ∃ d, d < 1 ∧ m.testBit (i + d) = true := by
    intro i
    constructor
    · intro hb; exact ⟨0, by omega, by simpa using hb⟩
    · rintro ⟨d, hd, hb⟩
      have he : d = 0 := by omega
      subst he; simpa using hb
  have h1 := smearStep_window m 1 m h0
  have h2 := smearStep_window _ 2 m h1
  have h4 := smearStep_window _ 4 m h2
  have h8 := smearStep_window _ 8 m h4
  have h16 := smearStep_window _ 16 m h8
  exact h16

theorem smear_eq_two_pow_size_sub_one (m : Nat) (hm : m < 2 ^ 32) :
    smearStep (smearStep (smearStep (smearStep (smearStep m 1) 2) 4) 8) 16
      = 2 ^ Nat.size m - 1 := by
  apply Nat.eq_of_testBit_eq
  intro i
  rw [Nat.testBit_two_pow_sub_one]
  by_cases h : i < Nat.size m
  · rw [decide_eq_true h]
    rw [smear_window m i]
    have h2 : 2 ^ i ≤ m := Nat.lt_size.mp h
    obtain ⟨j, hj_ge, hj⟩ := Nat.ge_two_pow_implies_high_bit_true h2
    have hjm : 2 ^ j ≤ m := Nat.testBit_implies_ge hj
    have hj32 : j < 32 := by
      by_contra hcon
      have hp : (2:Nat) ^ 32 ≤ 2 ^ j := Nat.pow_le_pow_right (by omega) (by omega)
      omega
    refine ⟨j - i, by omega, ?_⟩
    have he : i + (j - i) = j := by omega
    rw [he]; exact hj
  · rw [decide_eq_false h]
    rw [Bool.eq_false_iff]
    intro hb
    rw [smear_window m i] at hb
    obtain ⟨d, hd, hbit⟩ := hb
    have hge : 2 ^ (i + d) ≤ m := Nat.testBit_implies_ge hbit
    have : i + d < Nat.size m := Nat.lt_size.mpr hge
    omega

theorem roundUpPow2Hack_eq_nextPow2Spec (n0 : Nat) (h1 : 1 ≤ n0) (h2 : n0 ≤ 2 ^ 32) :
    roundUpPow2Hack n0 = nextPow2Spec n0 := by
  rw [roundUpPow2Hack_as_smear]
  have hstart : (n0 + (SIZE_T_MOD - 1)) % SIZE_T_MOD = n0 - 1 := by
    unfold SIZE_T_MOD
    omega
  rw [hstart, smear_eq_two_pow_size_sub_one (n0 - 1) (by omega)]
  have hsz : Nat.size (n0 - 1) ≤ 32 := Nat.size_le.mpr (by omega)
  have hple : (2:Nat) ^ Nat.size (n0 - 1) ≤ 2 ^ 32 := Nat.pow_le_pow_right (by omega) hsz
  have hpos : (1:Nat) ≤ 2 ^ Nat.size (n0 - 1) := Nat.one_le_two_pow
  unfold nextPow2Spec SIZE_T_MOD
  omega

/-- OR of a shifted-left value with a value below the shift boundary is
addition (disjoint bit ranges). -/
theorem or_add_piece (i a b : Nat) (h : b < 2 ^ i) :
    (a * 2 ^ i) ||| b = a * 2 ^ i + b := by
  calc a * 2 ^ i ||| b = 2 ^ i * a ||| b := by rw [Nat.mul_comm]
    _ = 2 ^ i * a + b := (Nat.mul_add_lt_is_or h a).symm
    _ = a * 2 ^ i + b := by rw [Nat.mul_comm]

/-- MAKE_ERROR_CODE_53 as plain arithmetic: the masked fields, scaled to
their bit positions, summed. -/
theorem make53_eq_sum (r s c st e : Nat) :
    MAKE_ERROR_CODE_53 r s c st e =
      r % 2 ^ 13 * 2 ^ 40 + s % 2 ^ 8 * 2 ^ 32 + c % 2 ^ 11 * 2 ^ 21
        + st % 2 ^ 5 * 2 ^ 16 + e % 2 ^ 16 := by
  have hmR : r &&& MAX_RESERVED = r % 2 ^ 13 := by
    have hm : MAX_RESERVED = 2 ^ 13 - 1 := by norm_num [ MAX_RESERVED]
    rw [hm, Nat.and_pow_two_sub_one_eq_mod]
  have hmS : s &&& MAX_SOFTWARE_ID = s % 2 ^ 8 := by
    have hm : MAX_SOFTWARE_ID = 2 ^ 8 - 1 := by norm_num [ MAX_SOFTWARE_ID]
    rw [hm, Nat.and_pow_two_sub_one_eq_mod]
  have hmC : c &&& MAX_COMPONENT = c % 2 ^ 11 := by
    have hm : MAX_COMPONENT = 2 ^ 11 - 1 := by norm_num [ MAX_COMPONENT]
    rw [hm, Nat.and_pow_two_sub_one_eq_mod]
  have hmT : st &&& MAX_STATUS = st % 2 ^ 5 := by
    have hm : MAX_STATUS = 2 ^ 5 - 1 := by norm_num [ MAX_STATUS]
    rw [hm, Nat.and_pow_two_sub_one_eq_mod]
  have hmE : e &&& MAX_ERROR_CODE = e % 2 ^ 16 := by
    have hm : MAX_ERROR_CODE = 2 ^ 16 - 1 := by norm_num [ MAX_ERROR_CODE]
    rw [hm, Nat.and_pow_two_sub_one_eq_mod]
  have hB : s % 2 ^ 8 < 2 ^ 8 := Nat.mod_lt _ (by norm_num)
  have hC : c % 2 ^ 11 < 2 ^ 11 := Nat.mod_lt _ (by norm_num)
  have hD : st % 2 ^ 5 < 2 ^ 5 := Nat.mod_lt _ (by norm_num)
  have hE : e % 2 ^ 16 < 2 ^ 16 := Nat.mod_lt _ (by norm_num)
  unfold MAKE_ERROR_CODE_53 RESERVED_BIT_POS SOFTWARE_ID_BIT_POS COMPONENT_BIT_POS STATUS_BIT_POS
  rw [hmR, hmS, hmC, hmT, hmE]
  rw [Nat.shiftLeft_eq, Nat.shiftLeft_eq, Nat.shiftLeft_eq, Nat.shiftLeft_eq]
  rw [or_add_piece 40 (r % 2 ^ 13) (s % 2 ^ 8 * 2 ^ 32) (by omega)]
  rw [show r % 2 ^ 13 * 2 ^ 40 + s % 2 ^ 8 * 2 ^ 32
        = (r % 2 ^ 13 * 2 ^ 8 + s % 2 ^ 8) * 2 ^ 32 from by ring]
  rw [or_add_piece 32 (r % 2 ^ 13 * 2 ^ 8 + s % 2 ^ 8) (c % 2 ^ 11 * 2 ^ 21) (by omega)]
  rw [show (r % 2 ^ 13 * 2 ^ 8 + s % 2 ^ 8) * 2 ^ 32 + c % 2 ^ 11 * 2 ^ 21
        = ((r % 2 ^ 13 * 2 ^ 8 + s % 2 ^ 8) * 2 ^ 11 + c % 2 ^ 11) * 2 ^ 21 from by ring]
  rw [or_add_piece 21 ((r % 2 ^ 13 * 2 ^ 8 + s % 2 ^ 8) * 2 ^ 11 + c % 2 ^ 11)
        (st % 2 ^ 5 * 2 ^ 16) (by omega)]
  rw [show ((r % 2 ^ 13 * 2 ^ 8 + s % 2 ^ 8) * 2 ^ 11 + c % 2 ^ 11) * 2 ^ 21
        + st % 2 ^ 5 * 2 ^ 16
        = (((r % 2 ^ 13 * 2 ^ 8 + s % 2 ^ 8) * 2 ^ 11 + c % 2 ^ 11) * 2 ^ 5
            + st % 2 ^ 5) * 2 ^ 16 from by ring]
  rw [or_add_piece 16 (((r % 2 ^ 13 * 2 ^ 8 + s % 2 ^ 8) * 2 ^ 11 + c % 2 ^ 11) * 2 ^ 5
        + st % 2 ^ 5) (e % 2 ^ 16) hE]

/-- Extracting a contiguous mask: AND with `(2 ^ w - 1) <<< p` then shift
right by `p` is division by `2 ^ p` followed by `% 2 ^ w`. -/
theorem and_shl_mask_shr (x p w : Nat) :
    (x &&& ((2 ^ w - 1) <<< p)) >>> p = (x >>> p) % 2 ^ w := by
  apply Nat.eq_of_testBit_eq
  intro i
  simp only [Nat.testBit_shiftRight, Nat.testBit_and, Nat.testBit_shiftLeft,
    Nat.testBit_two_pow_sub_one, Nat.testBit_mod_two_pow]
  have h1 : p ≤ p + i := by omega
  have h2 : p + i - p = i := by omega
  simp [h1, h2, Bool.and_comm]

theorem GET_ERROR_CODE_eq (u : Nat) : GET_ERROR_CODE u = u % 2 ^ 16 := by
  unfold GET_ERROR_CODE ERROR_CODE_MASK ERROR_CODE_BIT_POS
  have hm : (0x000000000000FFFF : Nat) = 2 ^ 16 - 1 := by norm_num
  rw [hm, Nat.and_pow_two_sub_one_eq_mod, Nat.shiftRight_zero]
  omega

theorem GET_STATUS_eq (u : Nat) : GET_STATUS u = u / 2 ^ 16 % 2 ^ 5 := by
  unfold GET_STATUS STATUS_MASK STATUS_BIT_POS
  have hm : (0x00000000001F0000 : Nat) = (2 ^ 5 - 1) <<< 16 := by rw [Nat.shiftLeft_eq]; norm_num
  rw [hm, and_shl_mask_shr, Nat.shiftRight_eq_div_pow]
  omega

theorem GET_COMPONENT_ID_eq (u : Nat) : GET_COMPONENT_ID u = u / 2 ^ 21 % 2 ^ 11 := by
  unfold GET_COMPONENT_ID COMPONENT_MASK COMPONENT_BIT_POS
  have hm : (0x00000000FFE00000 : Nat) = (2 ^ 11 - 1) <<< 21 := by rw [Nat.shiftLeft_eq]; norm_num
  rw [hm, and_shl_mask_shr, Nat.shiftRight_eq_div_pow]
  omega

theorem GET_SOFTWARE_ID_eq (u : Nat) : GET_SOFTWARE_ID u = u / 2 ^ 32 % 2 ^ 8 := by
  unfold GET_SOFTWARE_ID SOFTWARE_ID_MASK SOFTWARE_ID_BIT_POS
  have hm : (0x000000FF00000000 : Nat) = (2 ^ 8 - 1) <<< 32 := by rw [Nat.shiftLeft_eq]; norm_num
  rw [hm, and_shl_mask_shr, Nat.shiftRight_eq_div_pow]
  omega

theorem GET_RESERVED_eq (u : Nat) : GET_RESERVED u = u / 2 ^ 40 % 2 ^ 13 := by
  unfold GET_RESERVED RESERVED_MASK RESERVED_BIT_POS
  have hm : (0x001FFF0000000000 : Nat) = (2 ^ 13 - 1) <<< 40 := by rw [Nat.shiftLeft_eq]; norm_num
  rw [hm, and_shl_mask_shr, Nat.shiftRight_eq_div_pow]
  omega

/-- The complement mask used by IS_VALID_ERROR_CODE is the contiguous block
of bits 53..63. -/
theorem upper_mask_as_shl : (2 ^ 64 - 1) ^^^ VALID_ERROR_MASK = (2 ^ 11 - 1) <<< 53 := by
  decide

/-- The AND against the upper mask vanishes exactly on values below `2 ^ 53`
(for values representable in `uint64_t`). -/
theorem and_upper_eq_zero_iff (x : Nat) (hx : x < 2 ^ 64) :
    x &&& ((2 ^ 64 - 1) ^^^ VALID_ERROR_MASK) = 0 ↔ x < 2 ^ 53 := by
  rw [upper_mask_as_shl]
  constructor
  · intro h
    by_contra hcon
    push_neg at hcon
    obtain ⟨j, hj_ge, hj⟩ := Nat.ge_two_pow_implies_high_bit_true hcon
    have hjx : 2 ^ j ≤ x := Nat.testBit_implies_ge hj
    have hj64 : j < 64 := by
      by_contra hc2
      have hp : (2 : Nat) ^ 64 ≤ 2 ^ j := Nat.pow_le_pow_right (by omega) (by omega)
      omega
    have hM : ((2 ^ 11 - 1 : Nat) <<< 53).testBit j = true := by
      rw [Nat.testBit_shiftLeft, Nat.testBit_two_pow_sub_one]
      have h53 : j ≥ 53 := hj_ge
      have h11 : j - 53 < 11 := by omega
      simp [h53, h11]
    have hand : (x &&& ((2 ^ 11 - 1) <<< 53)).testBit j = true := by
      rw [Nat.testBit_and, hj, hM]
      rfl
    rw [h] at hand
    simp at hand
  · intro h
    apply Nat.eq_of_testBit_eq
    intro i
    rw [Nat.testBit_and, Nat.zero_testBit]
    by_cases hi : i < 53
    · have hM : ((2 ^ 11 - 1 : Nat) <<< 53).testBit i = false := by
        rw [Nat.testBit_shiftLeft]
        have hni : ¬ (i ≥ 53) := by omega
        simp [hni]
      rw [hM, Bool.and_false]
    · have hxb : x.testBit i = false := by
        apply Nat.testBit_lt_two_pow
        calc x < 2 ^ 53 := h
          _ ≤ 2 ^ i := Nat.pow_le_pow_right (by omega) (by omega)
      simp [hxb]

/-- IS_VALID_ERROR_CODE holds exactly on values below `2 ^ 53` (among
`uint64_t` values). -/
theorem is_valid_iff_lt (x : Nat) (hx : x < 2 ^ 64) :
    IS_VALID_ERROR_CODE x = true ↔ x < 2 ^ 53 := by
  unfold IS_VALID_ERROR_CODE
  rw [beq_iff_eq]
  exact and_upper_eq_zero_iff x hx

theorem is_valid_of_lt (x : Nat) (hx : x < 2 ^ 53) : IS_VALID_ERROR_CODE x = true :=
  (is_valid_iff_lt x (by omega)).mpr hx

/-- Every constructed error code stays below `2 ^ 53`. -/
theorem make53_lt (r s c st e : Nat) : MAKE_ERROR_CODE_53 r s c st e < 2 ^ 53 := by
  rw [make53_eq_sum]
  have h1 : r % 2 ^ 13 < 2 ^ 13 := Nat.mod_lt _ (by norm_num)
  have h2 : s % 2 ^ 8 < 2 ^ 8 := Nat.mod_lt _ (by norm_num)
  have h3 : c % 2 ^ 11 < 2 ^ 11 := Nat.mod_lt _ (by norm_num)
  have h4 : st % 2 ^ 5 < 2 ^ 5 := Nat.mod_lt _ (by norm_num)
  have h5 : e % 2 ^ 16 < 2 ^ 16 := Nat.mod_lt _ (by norm_num)
  omega

/-- C7: round-trip — for in-range field values, each extraction macro applied
to `MAKE_ERROR_CODE_53 reserved softwareId componentId status errorCode`
returns exactly the packed field (the reserved field via the mask and shift
used in the example program). -/
theorem claim_C7_roundtrip (reserved softwareId componentId status errorCode : Nat)
    (hr : reserved ≤ 8191) (hs : softwareId ≤ 255) (hc : componentId ≤ 2047)
    (hst : status ≤ 31) (he : errorCode ≤ 65535) :
    GET_ERROR_CODE (MAKE_ERROR_CODE_53 reserved softwareId componentId status errorCode)
        = errorCode
      ∧ GET_STATUS (MAKE_ERROR_CODE_53 reserved softwareId componentId status errorCode)
        = status
      ∧ GET_COMPONENT_ID (MAKE_ERROR_CODE_53 reserved softwareId componentId status errorCode)
        = componentId
      ∧ GET_SOFTWARE_ID (MAKE_ERROR_CODE_53 reserved softwareId componentId status errorCode)
        = softwareId
      ∧ GET_RESERVED (MAKE_ERROR_CODE_53 reserved softwareId componentId status errorCode)
        = reserved := by
  refine ⟨?_, ?_, ?_, ?_, ?_⟩
  · rw [GET_ERROR_CODE_eq, make53_eq_sum]; omega
  · rw [GET_STATUS_eq, make53_eq_sum]; omega
  · rw [GET_COMPONENT_ID_eq, make53_eq_sum]; omega
  · rw [GET_SOFTWARE_ID_eq, make53_eq_sum]; omega
  · rw [GET_RESERVED_eq, make53_eq_sum]; omega

/-- C7 witness: the round-trip at the end-to-end scenario values of the
example program. -/
theorem claim_C7_roundtrip_witness :
    (0xABC : Nat) ≤ 8191 ∧ (0x42 : Nat) ≤ 255 ∧ (0x567 : Nat) ≤ 2047
      ∧ (0x0D : Nat) ≤ 31 ∧ (0x8901 : Nat) ≤ 65535
      ∧ (GET_ERROR_CODE (MAKE_ERROR_CODE_53 0xABC 0x42 0x567 0x0D 0x8901) = 0x8901
        ∧ GET_STATUS (MAKE_ERROR_CODE_53 0xABC 0x42 0x567 0x0D 0x8901) = 0x0D
        ∧ GET_COMPONENT_ID (MAKE_ERROR_CODE_53 0xABC 0x42 0x567 0x0D 0x8901) = 0x567
        ∧ GET_SOFTWARE_ID (MAKE_ERROR_CODE_53 0xABC 0x42 0x567 0x0D 0x8901) = 0x42
        ∧ GET_RESERVED (MAKE_ERROR_CODE_53 0xABC 0x42 0x567 0x0D 0x8901) = 0xABC) :=
  ⟨by norm_num, by norm_num, by norm_num, by norm_num, by norm_num,
    claim_C7_roundtrip 0xABC 0x42 0x567 0x0D 0x8901
      (by norm_num) (by norm_num) (by norm_num) (by norm_num) (by norm_num)⟩

/-- C8: truncation — every input of MAKE_ERROR_CODE_53 is masked to its field
width before shifting (first conjunct: reducing each argument modulo its field
width leaves the result unchanged), in particular an out-of-range reserved
argument 8192 behaves exactly like 0 (second conjunct). -/
theorem claim_C8_truncation :
    (∀ r s c st e : Nat,
        MAKE_ERROR_CODE_53 r s c st e
          = MAKE_ERROR_CODE_53 (r % 2 ^ 13) (s % 2 ^ 8) (c % 2 ^ 11) (st % 2 ^ 5) (e % 2 ^ 16))
      ∧ ∀ s c st e : Nat, MAKE_ERROR_CODE_53 8192 s c st e = MAKE_ERROR_CODE_53 0 s c st e := by
  constructor
  · intro r s c st e
    rw [make53_eq_sum, make53_eq_sum]
    omega
  · intro s c st e
    rw [make53_eq_sum, make53_eq_sum]
    norm_num

/-- C9: validity — among `uint64_t` values, IS_VALID_ERROR_CODE holds iff no
bit at position 53 or above is set (`x >>> 53 = 0`); zero is valid, every
MAKE_ERROR_CODE_53 result is valid, and the all-ones value and `1 << 53` are
invalid. -/
theorem claim_C9_validity :
    (∀ x : Nat, x < 2 ^ 64 → (IS_VALID_ERROR_CODE x = true ↔ x >>> 53 = 0))
      ∧ (∀ r s c st e : Nat, IS_VALID_ERROR_CODE (MAKE_ERROR_CODE_53 r s c st e) = true)
      ∧ IS_VALID_ERROR_CODE 0 = true
      ∧ IS_VALID_ERROR_CODE 0xFFFFFFFFFFFFFFFF = false
      ∧ IS_VALID_ERROR_CODE (1 <<< 53) = false := by
  refine ⟨?_, ?_, by decide, by decide, by decide⟩
  · intro x hx
    rw [is_valid_iff_lt x hx, Nat.shiftRight_eq_div_pow]
    constructor
    · intro h; omega
    · intro h; omega
  · intro r s c st e
    exact is_valid_of_lt _ (make53_lt r s c st e)

/-- C9 witness: the characterization instantiated at the concrete valid value
5. -/
theorem claim_C9_validity_witness :
    (5 : Nat) < 2 ^ 64 ∧ (IS_VALID_ERROR_CODE 5 = true ↔ (5 : Nat) >>> 53 = 0) :=
  ⟨by norm_num, claim_C9_validity.1 5 (by norm_num)⟩

/-! ## List helper lemmas for C-string reads -/

theorem takeWhile_ne_zero_eq_self {l : List Nat} (h : ∀ b ∈ l, b ≠ 0) :
    l.takeWhile (fun b => b != 0) = l := by
  induction l with
  | nil => rfl
  | cons a t ih =>
    have ha : (a != 0) = true := by
      have hmem := h a (by simp)
      simpa using hmem
    have ht : ∀ b ∈ t, b ≠ 0 := fun b hb => h b (by simp [hb])
    simp [List.takeWhile_cons, ha, ih ht]

theorem takeWhile_append_zero (t r : List Nat) :
    (t ++ 0 :: r).takeWhile (fun b => b != 0) = t.takeWhile (fun b => b != 0) := by
  induction t with
  | nil => simp [List.takeWhile_cons]
  | cons a t ih =>
    simp only [List.cons_append, List.takeWhile_cons, ih]

theorem takeWhile_takeWhile_ne_zero (l : List Nat) :
    (l.takeWhile (fun b => b != 0)).takeWhile (fun b => b != 0)
      = l.takeWhile (fun b => b != 0) := by
  induction l with
  | nil => rfl
  | cons a t ih =>
    cases hb : (a != 0) with
    | false => simp [List.takeWhile_cons, hb]
    | true => simp [List.takeWhile_cons, hb, ih]

theorem occursIn_of_occursIn_takeWhile {s t : List Nat} {p : Nat → Bool}
    (h : occursIn s (t.takeWhile p)) : occursIn s t := by
  obtain ⟨u, v, huv⟩ := h
  refine ⟨u, v ++ t.dropWhile p, ?_⟩
  conv_lhs => rw [← List.takeWhile_append_dropWhile (p := p) (l := t)]
  rw [huv]
  simp

theorem not_occursIn_nil {s : List Nat} (hs : s ≠ []) : ¬ occursIn s [] := by
  rintro ⟨u, v, huv⟩
  have hlen := congrArg List.length huv
  simp at hlen
  exact hs (List.length_eq_zero.mp (by omega))

/-! ## Characterization of cerror_set_last_info_copy outcomes -/

theorem copy_none_state (a k : Bool) (u : Nat) (ctx : ErrorContext) :
    (cerror_set_last_info_copy a k u none ctx).state = ctx := by
  cases a <;> rfl

theorem copy_some_code (a k : Bool) (u : Nat) (s : List Nat) (ctx : ErrorContext) :
    ((cerror_set_last_info_copy a k u (some s) ctx).state).ullLastError
      = u &&& VALID_ERROR_MASK := by
  rcases ctx with ⟨code, info, buf, cap⟩
  simp only [cerror_set_last_info_copy, cerror_set_last]
  by_cases hgrow : ((s.takeWhile (fun b => b != 0)).length % SIZE_T_MOD + 1) % SIZE_T_MOD > cap
  · rw [if_pos hgrow]
    cases k
    · rw [if_neg (by decide : ¬ (false = true))]
      cases a <;> rfl
    · rw [if_pos rfl]
      rfl
  · rw [if_neg hgrow]
    rcases buf with _ | b <;> rfl

theorem copy_some_get_info (a k : Bool) (u : Nat) (s : List Nat) (ctx : ErrorContext) :
    cerror_get_last_info ((cerror_set_last_info_copy a k u (some s) ctx).state)
        = s.takeWhile (fun b => b != 0)
      ∨ cerror_get_last_info ((cerror_set_last_info_copy a k u (some s) ctx).state)
        = cerror_get_last_info ctx := by
  rcases ctx with ⟨code, info, buf, cap⟩
  simp only [cerror_set_last_info_copy, cerror_set_last]
  by_cases hgrow : ((s.takeWhile (fun b => b != 0)).length % SIZE_T_MOD + 1) % SIZE_T_MOD > cap
  · rw [if_pos hgrow]
    cases k
    · rw [if_neg (by decide : ¬ (false = true))]
      right
      cases a <;> (rcases info with _ | t | _ <;> rfl)
    · rw [if_pos rfl]
      left
      simp only [SetCopyResult.state, cerror_get_last_info, Option.getD, storeStringBytes]
      rw [takeWhile_append_zero]
      exact takeWhile_takeWhile_ne_zero s
  · rw [if_neg hgrow]
    rcases buf with _ | b
    · right
      rcases info with _ | t | _ <;> rfl
    · left
      simp only [SetCopyResult.state, cerror_get_last_info, Option.getD, storeStringBytes]
      rw [takeWhile_append_zero]
      exact takeWhile_takeWhile_ne_zero s

/-- The buffer/capacity coupling: an absent buffer has capacity 0 (spec
invariant `owned_capacity == 0 ⇔ owned_buffer is absent`, in the direction
the proofs need). -/
def bufferCapInv (ctx : ErrorContext) : Prop :=
  ctx.pszLastErrorInfoBuffer = none → ctx.nBufferCapacity = 0

theorem copy_bufferCapInv (a k : Bool) (u : Nat) (t : Option (List Nat))
    (ctx : ErrorContext) (h : bufferCapInv ctx) :
    bufferCapInv ((cerror_set_last_info_copy a k u t ctx).state) := by
  rcases t with _ | s
  · rw [copy_none_state]; exact h
  · rcases ctx with ⟨code, info, buf, cap⟩
    simp only [cerror_set_last_info_copy, cerror_set_last]
    by_cases hgrow : ((s.takeWhile (fun b => b != 0)).length % SIZE_T_MOD + 1) % SIZE_T_MOD > cap
    · rw [if_pos hgrow]
      cases k
      · rw [if_neg (by decide : ¬ (false = true))]
        cases a <;>
          (intro hc
           simp only [SetCopyResult.state] at hc ⊢
           exact h hc)
      · rw [if_pos rfl]
        intro hc
        simp only [SetCopyResult.state] at hc
        simp at hc
    · rw [if_neg hgrow]
      rcases buf with _ | b
      · intro hc
        simp only [SetCopyResult.state]
        exact h rfl
      · intro hc
        simp only [SetCopyResult.state] at hc
        simp at hc

theorem runOps_cons (a : Bool) (op : ApiOp) (ops : List ApiOp) (ctx : ErrorContext) :
    runOps a (op :: ops) ctx = runOps a ops (runOp a op ctx) := rfl

/-- The stored code satisfies the validity predicate as soon as it was
masked. -/
theorem is_valid_masked (u : Nat) : IS_VALID_ERROR_CODE (u &&& VALID_ERROR_MASK) = true := by
  apply is_valid_of_lt
  have hle : u &&& VALID_ERROR_MASK ≤ VALID_ERROR_MASK := Nat.and_le_right
  have hlt : VALID_ERROR_MASK < 2 ^ 53 := by norm_num [ VALID_ERROR_MASK]
  omega

/-- The validity invariant on the stored code. -/
def validLastError (ctx : ErrorContext) : Prop :=
  IS_VALID_ERROR_CODE ctx.ullLastError = true

theorem runOp_validLastError (a : Bool) (op : ApiOp) (ctx : ErrorContext)
    (h : validLastError ctx) : validLastError (runOp a op ctx) := by
  cases op with
  | setLast u => exact is_valid_masked u
  | setLastInfo u t => exact is_valid_masked u
  | setLastInfoCopy k u t =>
    rcases t with _ | s
    · unfold validLastError
      rw [runOp, copy_none_state]
      exact h
    · unfold validLastError
      rw [runOp, copy_some_code]
      exact is_valid_masked u
  | clearLast => exact (by decide : IS_VALID_ERROR_CODE 0 = true)
  | cleanupBuffer =>
    unfold validLastError runOp cleanupThreadLocalErrorBuffer
    exact (by decide : IS_VALID_ERROR_CODE 0 = true)
  

theorem runOps_validLastError (a : Bool) (ops : List ApiOp) (ctx : ErrorContext)
    (h : validLastError ctx) : validLastError (runOps a ops ctx) := by
  induction ops generalizing ctx with
  | nil => exact h
  | cons op rest ih =>
    rw [runOps_cons]
    exact ih _ (runOp_validLastError a op ctx h)

theorem runOp_bufferCapInv (a : Bool) (op : ApiOp) (ctx : ErrorContext)
    (h : bufferCapInv ctx) : bufferCapInv (runOp a op ctx) := by
  cases op with
  | setLast u => exact h
  | setLastInfo u t => exact h
  | setLastInfoCopy k u t => exact copy_bufferCapInv a k u t ctx h
  | clearLast =>
    rcases ctx with ⟨code, info, buf, cap⟩
    rcases buf with _ | b
    · intro _; exact h rfl
    · intro hc; simp [runOp, cerror_clear_last] at hc
  | cleanupBuffer =>
    rcases ctx with ⟨code, info, buf, cap⟩
    rcases buf with _ | b
    · intro _; exact h rfl
    · intro _; rfl

theorem runOps_bufferCapInv (a : Bool) (ops : List ApiOp) (ctx : ErrorContext)
    (h : bufferCapInv ctx) : bufferCapInv (runOps a ops ctx) := by
  induction ops generalizing ctx with
  | nil => exact h
  | cons op rest ih =>
    rw [runOps_cons]
    exact ih _ (runOp_bufferCapInv a op ctx h)

theorem cleanup_eq_initial (ctx : ErrorContext) (h : bufferCapInv ctx) :
    cleanupThreadLocalErrorBuffer ctx = initialErrorContext := by
  rcases ctx with ⟨code, info, buf, cap⟩
  rcases buf with _ | b
  · have h0 : cap = 0 := h rfl
    subst h0
    rfl
  · rfl

/-- C2: calling the owned-copy setter with a NULL text in a build with
assertions active aborts immediately via the `assert` (the result is
`halted`, never a normal return). -/
theorem claim_C2_null_text_aborts (allocOk : Bool) (ullError : Nat) (ctx : ErrorContext) :
    cerror_set_last_info_copy true allocOk ullError none ctx = SetCopyResult.halted ctx := rfl

/-- C10: with assertions compiled out, calling the owned-copy setter with a
NULL text returns immediately with the context completely unchanged — in
particular the code is not updated, unlike the allocation-failure path. -/
theorem claim_C10_null_text_ndebug (allocOk : Bool) (ullError : Nat) (ctx : ErrorContext) :
    cerror_set_last_info_copy false allocOk ullError none ctx = SetCopyResult.returned ctx := rfl

/-- C3: when the buffer must grow and the reallocation fails (NDEBUG build,
so the `assert` on the realloc result is compiled out and the function takes
the early-return path), the operation returns with the code already updated
to the masked new code and every other field of the context — info pointer,
owned buffer, capacity — exactly as before. -/
theorem claim_C3_alloc_failure (ullError : Nat) (s : List Nat) (ctx : ErrorContext)
    (hgrow : ((s.takeWhile (fun b => b != 0)).length % SIZE_T_MOD + 1) % SIZE_T_MOD
      > ctx.nBufferCapacity) :
    cerror_set_last_info_copy false false ullError (some s) ctx
      = SetCopyResult.returned { ctx with ullLastError := ullError &&& VALID_ERROR_MASK } := by
  rcases ctx with ⟨code, info, buf, cap⟩
  simp only [cerror_set_last_info_copy, cerror_set_last]
  rw [if_pos hgrow, if_neg (by decide : ¬ (false = true))]
  rfl

/-- C3 witness: the allocation-failure path at a concrete one-byte string on
the fresh context. -/
theorem claim_C3_alloc_failure_witness :
    ((([ 65] : List Nat).takeWhile (fun b => b != 0)).length % SIZE_T_MOD + 1) % SIZE_T_MOD
        > initialErrorContext.nBufferCapacity
      ∧ cerror_set_last_info_copy false false 7 (some [ 65]) initialErrorContext
          = SetCopyResult.returned
              { initialErrorContext with ullLastError := 7 &&& VALID_ERROR_MASK } :=
  ⟨by decide, claim_C3_alloc_failure 7 [ 65] initialErrorContext (by decide)⟩

/-- C5: the set/get contract and the validity invariant — getting after any
of the three setters returns the code masked to 53 bits, and along every
trace of API calls from the zero-initialized context the stored code
satisfies IS_VALID_ERROR_CODE. -/
theorem claim_C5_set_get_invariant :
    (∀ ullError ctx,
        cerror_get_last (cerror_set_last ullError ctx) = ullError &&& VALID_ERROR_MASK)
      ∧ (∀ ullError t ctx,
          cerror_get_last (cerror_set_last_info ullError t ctx) = ullError &&& VALID_ERROR_MASK)
      ∧ (∀ assertsActive allocOk ullError s ctx,
          cerror_get_last ((cerror_set_last_info_copy assertsActive allocOk ullError
            (some s) ctx).state) = ullError &&& VALID_ERROR_MASK)
      ∧ ∀ assertsActive ops,
          IS_VALID_ERROR_CODE ((runOps assertsActive ops initialErrorContext).ullLastError)
            = true := by
  refine ⟨fun _ _ => rfl, fun _ _ _ => rfl, ?_, ?_⟩
  · intro a k u s ctx
    exact copy_some_code a k u s ctx
  · intro a ops
    exact runOps_validLastError a ops initialErrorContext rfl

/-- C6: cleanup releases the owned buffer, resets the capacity (whenever a
buffer was present), zeroes the code and drops the info pointer; it is
idempotent, a no-op fixed point on the fresh context, and from any state
reachable through the public API it restores exactly the initial zero
context. -/
theorem claim_C6_cleanup :
    (∀ ctx,
        (cleanupThreadLocalErrorBuffer ctx).pszLastErrorInfoBuffer = none
          ∧ (cleanupThreadLocalErrorBuffer ctx).ullLastError = 0
          ∧ (cleanupThreadLocalErrorBuffer ctx).pszLastErrorInfo = InfoView.null
          ∧ (ctx.pszLastErrorInfoBuffer.isSome = true →
              (cleanupThreadLocalErrorBuffer ctx).nBufferCapacity = 0))
      ∧ (∀ ctx, cleanupThreadLocalErrorBuffer (cleanupThreadLocalErrorBuffer ctx)
          = cleanupThreadLocalErrorBuffer ctx)
      ∧ (∀ assertsActive ops,
          cleanupThreadLocalErrorBuffer (runOps assertsActive ops initialErrorContext)
            = initialErrorContext)
      ∧ cleanupThreadLocalErrorBuffer initialErrorContext = initialErrorContext := by
  refine ⟨?_, ?_, ?_, rfl⟩
  · intro ctx
    rcases ctx with ⟨code, info, buf, cap⟩
    rcases buf with _ | b
    · exact ⟨rfl, rfl, rfl, by intro hc; simp at hc⟩
    · exact ⟨rfl, rfl, rfl, fun _ => rfl⟩
  · intro ctx
    rcases ctx with ⟨code, info, buf, cap⟩
    rcases buf with _ | b <;> rfl
  · intro a ops
    exact cleanup_eq_initial _ (runOps_bufferCapInv a ops initialErrorContext (fun _ => rfl))

/-- C6 witness: the capacity-reset conjunct at a context holding an allocated
buffer. -/
theorem claim_C6_cleanup_witness :
    (ErrorContext.mk 5 InfoView.null (some [ 1, 2]) 2).pszLastErrorInfoBuffer.isSome = true
      ∧ (cleanupThreadLocalErrorBuffer
          (ErrorContext.mk 5 InfoView.null (some [ 1, 2]) 2)).nBufferCapacity = 0 :=
  ⟨rfl, ((claim_C6_cleanup.1 (ErrorContext.mk 5 InfoView.null (some [ 1, 2]) 2)).2.2.2) rfl⟩

/-! ## Secrecy after clear (machinery for C4) -/

theorem get_info_set_last (u : Nat) (ctx : ErrorContext) :
    cerror_get_last_info (cerror_set_last u ctx) = cerror_get_last_info ctx := by
  rcases ctx with ⟨code, info, buf, cap⟩
  rfl

theorem get_info_clear (ctx : ErrorContext) :
    cerror_get_last_info (cerror_clear_last ctx) = [] := by
  rcases ctx with ⟨code, info, buf, cap⟩
  rfl

theorem get_info_cleanup (ctx : ErrorContext) :
    cerror_get_last_info (cleanupThreadLocalErrorBuffer ctx) = [] := by
  rcases ctx with ⟨code, info, buf, cap⟩
  rcases buf with _ | b <;> rfl

/-- One API call cannot introduce an occurrence of `secret` into the
observable info string unless its own string argument contains one. -/
theorem secrecy_step (secret : List Nat) (hs : secret ≠ []) (a : Bool) (op : ApiOp)
    (ctx : ErrorContext) (hop : ∀ t ∈ opTexts op, ¬ occursIn secret t)
    (hctx : ¬ occursIn secret (cerror_get_last_info ctx)) :
    ¬ occursIn secret (cerror_get_last_info (runOp a op ctx)) := by
  cases op with
  | setLast u =>
    simp only [runOp]
    rw [get_info_set_last]
    exact hctx
  | setLastInfo u t =>
    rcases t with _ | t
    · simp only [runOp]
      have hnull : cerror_get_last_info (cerror_set_last_info u none ctx) = [] := by
        rcases ctx with ⟨code, info, buf, cap⟩
        rfl
      rw [hnull]
      exact not_occursIn_nil hs
    · simp only [runOp]
      have hbor : cerror_get_last_info (cerror_set_last_info u (some t) ctx)
          = t.takeWhile (fun b => b != 0) := by
        rcases ctx with ⟨code, info, buf, cap⟩
        rfl
      rw [hbor]
      intro hocc
      exact hop t (by simp [ opTexts]) (occursIn_of_occursIn_takeWhile hocc)
  | setLastInfoCopy k u t =>
    rcases t with _ | s
    · simp only [runOp]
      rw [copy_none_state]
      exact hctx
    · simp only [runOp]
      rcases copy_some_get_info a k u s ctx with h | h
      · rw [h]
        intro hocc
        exact hop s (by simp [ opTexts]) (occursIn_of_occursIn_takeWhile hocc)
      · rw [h]
        exact hctx
  | clearLast =>
    simp only [runOp]
    rw [get_info_clear]
    exact not_occursIn_nil hs
  | cleanupBuffer =>
    simp only [runOp]
    rw [get_info_cleanup]
    exact not_occursIn_nil hs

/-- Along a trace that never supplies a string containing `secret`, the
observable info string never contains `secret`. -/
theorem secrecy_run (secret : List Nat) (hs : secret ≠ []) (a : Bool) (ops : List ApiOp)
    (ctx : ErrorContext) (hops : opsAvoid secret ops)
    (hctx : ¬ occursIn secret (cerror_get_last_info ctx)) :
    ¬ occursIn secret (cerror_get_last_info (runOps a ops ctx)) := by
  induction ops generalizing ctx with
  | nil => exact hctx
  | cons op rest ih =>
    rw [runOps_cons]
    exact ih _ (fun o ho t ht => hops o (by simp [ho]) t ht)
      (secrecy_step secret hs a op ctx (hops op (by simp)) hctx)

/-- C4: clear semantics — in every context state, clear zeroes the code,
drops the info pointer, keeps the capacity and, when an owned buffer exists,
only overwrites its first byte (no deallocation); consequently after an
owned-copy set of a secret string followed by clear, the code reads 0, the
info string is empty, and no later sequence of public API calls (none of
which supplies the secret itself) can ever observe the secret through
cerror_get_last_info. -/
theorem claim_C4_clear_semantics :
    (∀ ctx,
        (cerror_clear_last ctx).ullLastError = 0
          ∧ (cerror_clear_last ctx).pszLastErrorInfo = InfoView.null
          ∧ (cerror_clear_last ctx).nBufferCapacity = ctx.nBufferCapacity
          ∧ (∀ b, ctx.pszLastErrorInfoBuffer = some b →
              (cerror_clear_last ctx).pszLastErrorInfoBuffer = some (b.set 0 0))
          ∧ (ctx.pszLastErrorInfoBuffer = none →
              (cerror_clear_last ctx).pszLastErrorInfoBuffer = none))
      ∧ ∀ ullError secret allocOk ctx,
          cerror_get_last (cerror_clear_last
              ((cerror_set_last_info_copy false allocOk ullError (some secret) ctx).state)) = 0
            ∧ cerror_get_last_info (cerror_clear_last
                ((cerror_set_last_info_copy false allocOk ullError (some secret) ctx).state)) = []
            ∧ (secret ≠ [] → ∀ assertsActive ops, opsAvoid secret ops →
                ¬ occursIn secret (cerror_get_last_info (runOps assertsActive ops
                    (cerror_clear_last
                      ((cerror_set_last_info_copy false allocOk ullError
                        (some secret) ctx).state))))) := by
  constructor
  · intro ctx
    rcases ctx with ⟨code, info, buf, cap⟩
    rcases buf with _ | b
    · refine ⟨rfl, rfl, rfl, ?_, fun _ => rfl⟩
      intro b hb
      simp at hb
    · refine ⟨rfl, rfl, rfl, ?_, ?_⟩
      · intro b2 hb
        simp at hb
        subst hb
        rfl
      · intro hb
        simp at hb
  · intro ullError secret allocOk ctx
    refine ⟨rfl, get_info_clear _, ?_⟩
    intro hs a ops hops
    apply secrecy_run secret hs a ops _ hops
    rw [get_info_clear]
    exact not_occursIn_nil hs

/-- C4 witness: the scenario at a concrete secret and a concrete subsequent
trace. -/
theorem claim_C4_clear_semantics_witness :
    ([ 9, 9] : List Nat) ≠ []
      ∧ opsAvoid [ 9, 9] [ ApiOp.setLast 1]
      ∧ ¬ occursIn [ 9, 9] (cerror_get_last_info (runOps false [ ApiOp.setLast 1]
          (cerror_clear_last
            ((cerror_set_last_info_copy false true 3 (some [ 9, 9])
              initialErrorContext).state)))) := by
  have hops : opsAvoid [ 9, 9] [ ApiOp.setLast 1] := by
    intro op hop t ht
    simp at hop
    subst hop
    simp [ opTexts] at ht
  exact ⟨by decide, hops,
    (claim_C4_clear_semantics.2 3 [ 9, 9] true initialErrorContext).2.2
      (by decide) false [ ApiOp.setLast 1] hops⟩

/-! ## C1: growth policy of the owned-copy setter -/

/-- Outcome of the copy setter on the growth path with a successful
reallocation, for a text with no interior NUL and a `size_t`-representable
length. -/
theorem copy_ok_grow (u : Nat) (s : List Nat) (ctx : ErrorContext)
    (hTW : s.takeWhile (fun b => b != 0) = s)
    (hlen64 : s.length + 1 < 2 ^ 64)
    (hgrow : s.length + 1 > ctx.nBufferCapacity) :
    cerror_set_last_info_copy false true u (some s) ctx
      = SetCopyResult.returned
          { ullLastError := u &&& VALID_ERROR_MASK
            pszLastErrorInfo := InfoView.owned
            pszLastErrorInfoBuffer := some (storeStringBytes
              (reallocContents ctx.pszLastErrorInfoBuffer
                (if roundUpPow2Hack (s.length + 1) > ERROR_INFO_INITIAL_CAPACITY
                 then roundUpPow2Hack (s.length + 1) else ERROR_INFO_INITIAL_CAPACITY)) s)
            nBufferCapacity :=
              if roundUpPow2Hack (s.length + 1) > ERROR_INFO_INITIAL_CAPACITY
              then roundUpPow2Hack (s.length + 1) else ERROR_INFO_INITIAL_CAPACITY } := by
  rcases ctx with ⟨code, info, buf, cap⟩
  have hgrow2 : s.length + 1 > cap := hgrow
  simp only [cerror_set_last_info_copy, cerror_set_last, hTW]
  have hreq : (s.length % SIZE_T_MOD + 1) % SIZE_T_MOD = s.length + 1 := by
    unfold SIZE_T_MOD
    omega
  rw [hreq]
  rw [if_pos hgrow2, if_pos trivial]

/-- Outcome of the copy setter when the buffer is already large enough, for a
text with no interior NUL and a `size_t`-representable length. -/
theorem copy_ok_nogrow (u : Nat) (s : List Nat) (ctx : ErrorContext) (b : List Nat)
    (hTW : s.takeWhile (fun b => b != 0) = s)
    (hlen64 : s.length + 1 < 2 ^ 64)
    (hbuf : ctx.pszLastErrorInfoBuffer = some b)
    (hng : ¬ (s.length + 1 > ctx.nBufferCapacity)) :
    cerror_set_last_info_copy false true u (some s) ctx
      = SetCopyResult.returned
          { ullLastError := u &&& VALID_ERROR_MASK
            pszLastErrorInfo := InfoView.owned
            pszLastErrorInfoBuffer := some (storeStringBytes b s)
            nBufferCapacity := ctx.nBufferCapacity } := by
  rcases ctx with ⟨code, info, buf, cap⟩
  have hng2 : ¬ (s.length + 1 > cap) := hng
  have hbuf2 : buf = some b := hbuf
  subst hbuf2
  simp only [cerror_set_last_info_copy, cerror_set_last, hTW]
  have hreq : (s.length % SIZE_T_MOD + 1) % SIZE_T_MOD = s.length + 1 := by
    unfold SIZE_T_MOD
    omega
  rw [hreq]
  rw [if_neg hng2]

/-- C1 (amended): for a non-null text of length `L` with `L + 1 ≤ 2 ^ 32`
(the range in which the 32-bit round-up hack is exact on a 64-bit `size_t`),
on a context satisfying the buffer/capacity coupling: the call returns
normally, performing at most the one reallocation of the source; if `L + 1`
exceeds the current capacity the new capacity is the least power of two
`≥ L + 1` (see `le_nextPow2Spec`, `nextPow2Spec_le_pow`, `nextPow2Spec_isPow2`),
floored at ERROR_INFO_INITIAL_CAPACITY; otherwise the capacity is unchanged;
and in all these success cases cerror_get_last_info afterwards returns
exactly the given text. -/
theorem claim_C1_amended (ullError : Nat) (ctx : ErrorContext) (s : List Nat)
    (hwf : ctx.pszLastErrorInfoBuffer = none → ctx.nBufferCapacity = 0)
    (hz : 0 ∉ s)
    (hlen : s.length + 1 ≤ 2 ^ 32) :
    cerror_set_last_info_copy false true ullError (some s) ctx
        = SetCopyResult.returned
            ((cerror_set_last_info_copy false true ullError (some s) ctx).state)
      ∧ (s.length + 1 > ctx.nBufferCapacity →
          ((cerror_set_last_info_copy false true ullError (some s) ctx).state).nBufferCapacity
            = max ERROR_INFO_INITIAL_CAPACITY (nextPow2Spec (s.length + 1)))
      ∧ (s.length + 1 ≤ ctx.nBufferCapacity →
          ((cerror_set_last_info_copy false true ullError (some s) ctx).state).nBufferCapacity
            = ctx.nBufferCapacity)
      ∧ cerror_get_last_info ((cerror_set_last_info_copy false true ullError (some s) ctx).state)
          = s := by
  have hzb : ∀ b ∈ s, b ≠ 0 := fun b hb hb0 => hz (hb0 ▸ hb)
  have hTW : s.takeWhile (fun b => b != 0) = s := takeWhile_ne_zero_eq_self hzb
  have hlen64 : s.length + 1 < 2 ^ 64 := by omega
  by_cases hgrow : s.length + 1 > ctx.nBufferCapacity
  · rw [copy_ok_grow ullError s ctx hTW hlen64 hgrow]
    refine ⟨rfl, ?_, ?_, ?_⟩
    · intro _
      simp only [SetCopyResult.state]
      rw [roundUpPow2Hack_eq_nextPow2Spec _ (by omega) hlen]
      unfold ERROR_INFO_INITIAL_CAPACITY
      split
      · omega
      · omega
    · intro hle
      exact absurd hgrow (by omega)
    · simp only [SetCopyResult.state, cerror_get_last_info, Option.getD, storeStringBytes]
      rw [takeWhile_append_zero]
      exact hTW
  · rcases hb : ctx.pszLastErrorInfoBuffer with _ | b
    · exact absurd (hwf hb) (by omega)
    · rw [copy_ok_nogrow ullError s ctx b hTW hlen64 hb hgrow]
      refine ⟨rfl, ?_, ?_, ?_⟩
      · intro hg
        exact absurd hg hgrow
      · intro _
        rfl
      · simp only [SetCopyResult.state, cerror_get_last_info, Option.getD, storeStringBytes]
        rw [takeWhile_append_zero]
        exact hTW

/-- C1 witness: a two-byte text on the fresh context (growth path, floored
capacity) reads back exactly. -/
theorem claim_C1_amended_witness :
    (initialErrorContext.pszLastErrorInfoBuffer = none → initialErrorContext.nBufferCapacity = 0)
      ∧ (0 : Nat) ∉ ([ 72, 105] : List Nat)
      ∧ ([ 72, 105] : List Nat).length + 1 ≤ 2 ^ 32
      ∧ cerror_get_last_info ((cerror_set_last_info_copy false true 7 (some [ 72, 105])
          initialErrorContext).state) = [ 72, 105] :=
  ⟨fun _ => rfl, by decide, by decide,
    (claim_C1_amended 7 initialErrorContext [ 72, 105] (fun _ => rfl)
      (by decide) (by decide)).2.2.2⟩

/-- C1 counterexample to the claim as stated: at the concrete text of length
`2 ^ 32` (all bytes 1) on the fresh context, the growth path is taken
(`2 ^ 32 + 1` exceeds the capacity 0), yet the resulting capacity is
`2 ^ 33 - 1`: the 32-bit round-up hack, run on a 64-bit `size_t`, does not
produce the next power of two (`2 ^ 33`, which the 128-byte floor would also
keep), so the claimed capacity equation fails at this input. -/
theorem claim_C1_counterexample :
    (List.replicate (2 ^ 32) (1 : Nat)).length = 2 ^ 32
      ∧ (2 : Nat) ^ 32 + 1 > initialErrorContext.nBufferCapacity
      ∧ ((cerror_set_last_info_copy false true 0 (some (List.replicate (2 ^ 32) 1))
          initialErrorContext).state).nBufferCapacity = 2 ^ 33 - 1
      ∧ nextPow2Spec (2 ^ 32 + 1) = 2 ^ 33
      ∧ max ERROR_INFO_INITIAL_CAPACITY (2 ^ 33) = 2 ^ 33
      ∧ (2 : Nat) ^ 33 - 1 ≠ 2 ^ 33 := by
  have hlenr : (List.replicate (2 ^ 32) (1 : Nat)).length = 2 ^ 32 :=
    List.length_replicate (2 ^ 32) 1
  refine ⟨hlenr, by decide, ?_, ?_, by decide, by decide⟩
  · have hTW : (List.replicate (2 ^ 32) (1 : Nat)).takeWhile (fun b => b != 0)
        = List.replicate (2 ^ 32) 1 := by
      apply takeWhile_ne_zero_eq_self
      intro b hb
      have hb1 := List.eq_of_mem_replicate hb
      omega
    have hlen64 : (List.replicate (2 ^ 32) (1 : Nat)).length + 1 < 2 ^ 64 := by
      rw [hlenr]
      norm_num
    have hgrow : (List.replicate (2 ^ 32) (1 : Nat)).length + 1
        > initialErrorContext.nBufferCapacity := by
      rw [hlenr]
      norm_num [ initialErrorContext]
    rw [copy_ok_grow 0 (List.replicate (2 ^ 32) 1) initialErrorContext hTW hlen64 hgrow]
    simp only [SetCopyResult.state]
    rw [hlenr]
    have hr : roundUpPow2Hack (2 ^ 32 + 1) = 2 ^ 33 - 1 := by decide
    rw [hr]
    norm_num [ ERROR_INFO_INITIAL_CAPACITY]
  · have h1 : (2 : Nat) ^ 32 + 1 - 1 = 2 ^ 32 := by norm_num
    rw [nextPow2Spec, h1, Nat.size_pow]
